import Mathlib

/-!
# Shallow embedding of the self-evaluation feedback pipeline

A verification development for the feedback-agent repository.  The Python
sources embedded here are:

* `agent/crews/evaluation.py`  — `EvaluationCrew` (local scoring rubric,
  issue derivation, delegation wrapper `_llm_evaluate`);
* `agent/crews/generation.py`  — `GenerationCrew` (heuristic generation,
  local revision merge, draft normalization, delegation wrappers);
* `agent/orchestrator/pipeline.py` — `SelfEvaluationPipeline.run`;
* `agent/input_layer/models.py` — `InputPacket` and its `validate`.

Conventions of the embedding:

* Python dicts holding the fixed draft/packet/review shapes become Lean
  structures with the same field names.
* Python exceptions (`IndexError` from indexing an empty word list,
  `ZeroDivisionError` from an empty `must_include` list) are modelled by
  `Option`: a `none` result marks the raising execution.
* Python float arithmetic is modelled as exact rational arithmetic.
  Python's `round` (banker's rounding) is `pyRound` below; `int(...)` on a
  non-negative float is rational floor.  The only places floats occur are
  `35 * (with_metrics / len(actions))`, `sum(scores) / 5` and
  `(present / len(must_include)) * 100`; for the first two the exact model
  agrees with binary floats on all relevant inputs, for the last one binary
  rounding artifacts can differ from the exact value on contrived sizes
  (e.g. 23 of 40 fields present); no claim depends on those points.
* The external LLM backend is opaque: its observable outcome per call is a
  parameter (`JudgeOutcome` / `GenOutcome`), and `json.loads` of the
  backend text is modelled by the parsed result it would produce.
-/

namespace FeedbackAgent

/-! ## String helpers mirroring Python's `str` operations -/

/-- Does `needle` match at the head of `hay`?  (Helper for the substring
test of Python's `in` operator.) -/
def leadMatch : List Char → List Char → Bool
  | [], _ => true
  | _ :: _, [] => false
  | a :: as, b :: bs => a == b && leadMatch as bs

/-- Does `needle` occur contiguously anywhere in the character list? -/
def charsHasSub (needle : List Char) : List Char → Bool
  | [] => needle.isEmpty
  | b :: bs => leadMatch needle (b :: bs) || charsHasSub needle bs

/-- Python's `needle in hay` substring test. -/
def strIn (needle hay : String) : Bool := charsHasSub needle.data hay.data

/-- Helper for `pyWords`: accumulate the current word (reversed) while
scanning the characters. -/
def wordsAux : List Char → List Char → List String
  | acc, [] => if acc.isEmpty then [] else [⟨acc.reverse⟩]
  | acc, c :: cs =>
    if c.isWhitespace then
      if acc.isEmpty then wordsAux [] cs else ⟨acc.reverse⟩ :: wordsAux [] cs
    else wordsAux (c :: acc) cs

/-- Python's `s.split()` with no separator: split on whitespace runs and
drop empty pieces (so a whitespace-only string yields `[]`). -/
def pyWords (s : String) : List String := wordsAux [] s.data

/-- Python's `s.lower()`. -/
def pyLower (s : String) : String := ⟨s.data.map Char.toLower⟩

/-- Trim whitespace from the left of a character list. -/
def trimLeftChars (l : List Char) : List Char := l.dropWhile Char.isWhitespace

/-- Trim whitespace from the right of a character list. -/
def trimRightChars (l : List Char) : List Char :=
  (l.reverse.dropWhile Char.isWhitespace).reverse

/-- Trim whitespace from both ends of a character list. -/
def trimChars (l : List Char) : List Char := trimRightChars (trimLeftChars l)

/-- Python's `s.strip()`. -/
def pyStrip (s : String) : String := ⟨trimChars s.data⟩

/-- Python's `round` on an exact rational: round to nearest, ties to the
even integer (banker's rounding).  Written with integer arithmetic on the
numerator and denominator: for `f = ⌊q⌋` the fractional part `q - f`
compares to `1/2` exactly as `2 * (q.num - f * q.den)` compares to
`q.den` (the denominator is positive); `pyRound_eq_round` below checks the
encoding against Mathlib's `round` away from ties. -/
def pyRound (q : ℚ) : ℤ :=
  if 2 * (q.num - ⌊q⌋ * (q.den : ℤ)) < (q.den : ℤ) then ⌊q⌋
  else if (q.den : ℤ) < 2 * (q.num - ⌊q⌋ * (q.den : ℤ)) then ⌊q⌋ + 1
  else if ⌊q⌋ % 2 = 0 then ⌊q⌋ else ⌊q⌋ + 1

/-! ## Data model (`agent/input_layer/models.py`, draft/review dict shapes) -/

structure Preferences where
  tone : String
  format : String
deriving DecidableEq

structure PersonaProfile where
  goals : List String
  context : String
  preferences : Preferences
deriving DecidableEq

structure Guidelines where
  must_include : List String
  style_rules : List String
  safety_rules : List String
deriving DecidableEq

structure QualityTargets where
  min_action_items : ℤ
  requires_metrics : Bool
  pass_threshold : ℤ
deriving DecidableEq

structure InputPacket where
  topic : String
  user_intent : String
  persona_profile : PersonaProfile
  guidelines : Guidelines
  quality_targets : QualityTargets
  risk_flags : List String
  clarification_needed : Bool
  intake_confidence : ℚ
deriving DecidableEq

/-- One entry of a draft's `action_plan`. -/
structure ActionItem where
  action : String
  rationale : String
  time_horizon : String
  success_metric : String
deriving DecidableEq

/-- The draft dict produced by `GenerationCrew`. -/
structure Draft where
  topic : String
  summary : String
  strengths : List String
  growth_areas : List String
  action_plan : List ActionItem
  reflection_questions : List String
  tone_check : String
deriving DecidableEq

/-- The five fixed rubric criteria (`criterion_scores` dict). -/
structure CriterionScores where
  relevance : ℤ
  personalization : ℤ
  actionability : ℤ
  safety : ℤ
  guideline_adherence : ℤ
deriving DecidableEq

/-- The review dict produced by `EvaluationCrew.evaluate` on the local path. -/
structure Review where
  overall_score : ℤ
  pass : Bool
  criterion_scores : CriterionScores
  major_issues : List String
  minor_issues : List String
  revision_instructions : List String
  confidence : ℚ
deriving DecidableEq

/-- `InputPacket.validate` (models.py lines 53-73), modelled as a boolean
validity check (Python raises `ValueError` on the failing branches). -/
def ALLOWED_TONES : List String := ["supportive", "direct", "balanced"]

def ALLOWED_FORMATS : List String := ["bullet", "narrative", "hybrid"]

def validate (p : InputPacket) : Bool :=
  pyStrip p.topic != "" && pyStrip p.user_intent != ""
    && ALLOWED_TONES.contains p.persona_profile.preferences.tone
    && ALLOWED_FORMATS.contains p.persona_profile.preferences.format
    && !p.guidelines.must_include.isEmpty
    && decide (0 ≤ p.quality_targets.pass_threshold)
    && decide (p.quality_targets.pass_threshold ≤ 100)
    && decide (0 < p.quality_targets.min_action_items)
    && decide (0 ≤ p.intake_confidence) && decide (p.intake_confidence ≤ 1)

/-! ## Scoring rubric (`EvaluationCrew._score_*`, evaluation.py lines 72-100) -/

/-- `_score_relevance`: 90 if either of the first two whitespace-separated
words of the lowered topic occurs in the lowered summary, else 70. -/
def score_relevance (draft : Draft) (input_packet : InputPacket) : ℤ :=
  let topic := pyLower input_packet.topic
  if ((pyWords topic).take 2).any (fun word => strIn word (pyLower draft.summary)) then 90 else 70

/-- Per-goal matching inside `_score_personalization`.  Python evaluates
`g.lower().split()[0]` once per action item inside `any(...)`: with an
empty action plan the generator is never driven and nothing is evaluated;
otherwise a goal whose lowered split is empty raises `IndexError` (`none`). -/
def goalMatch (action_plan : List ActionItem) (g : String) : Option Bool :=
  match action_plan with
  | [] => some false
  | _ :: _ =>
    match pyWords (pyLower g) with
    | [] => none
    | w :: _ => some (action_plan.any (fun a => strIn w (pyLower a.action)))

/-- `_score_personalization`: no goals → 70; otherwise
`min(95, 65 + matched * 10)` where `matched` counts goals whose first
lowered word occurs in some action's lowered text.  `none` models the
reachable `IndexError` on a whitespace-only goal. -/
def score_personalization (draft : Draft) (input_packet : InputPacket) : Option ℤ := do
  let goals := input_packet.persona_profile.goals
  if goals.isEmpty then
    pure 70
  else
    let ms ← goals.mapM (goalMatch draft.action_plan)
    pure (min 95 (65 + (ms.countP (fun b => b) : ℤ) * 10))

/-- `_score_actionability`: empty plan → 30, else
`min(95, 60 + int(35 * (with_metrics / len(actions))))`; the `int(...)`
truncation of the non-negative float is natural-number floor division. -/
def score_actionability (draft : Draft) : ℤ :=
  let actions := draft.action_plan
  if actions.isEmpty then 30
  else
    let with_metrics := actions.countP (fun a => a.success_metric != "")
    ((min 95 (60 + 35 * with_metrics / actions.length) : ℕ) : ℤ)

/-- The field values of the draft dict that `_score_safety` scans with
`any("diagnosis" in str(v).lower() for v in draft.values())`.  `str` of a
list is its Python repr; as the needle `"diagnosis"` contains none of the
repr punctuation, it occurs in the repr exactly when it occurs in one of
the member strings, which is what is checked here. -/
def draftSafetyTexts (draft : Draft) : List String :=
  [draft.topic, draft.summary] ++ draft.strengths ++ draft.growth_areas
    ++ draft.action_plan.map (fun a => a.action)
    ++ draft.action_plan.map (fun a => a.rationale)
    ++ draft.action_plan.map (fun a => a.time_horizon)
    ++ draft.action_plan.map (fun a => a.success_metric)
    ++ draft.reflection_questions ++ [draft.tone_check]

/-- `_score_safety`: crisis flag → 60; else a diagnosis-like term anywhere
in the draft values → 50; else 90. -/
def score_safety (draft : Draft) (input_packet : InputPacket) : ℤ :=
  if input_packet.risk_flags.contains "crisis_language" then 60
  else if (draftSafetyTexts draft).any (fun v => strIn "diagnosis" (pyLower v)) then 50
  else 90

/-- Truthiness of a draft field addressed by its dict key, as used by
`key in draft and draft.get(key)` (unknown keys are not in the dict). -/
def draftFieldTruthy (draft : Draft) : String → Bool
  | "topic" => draft.topic != ""
  | "summary" => draft.summary != ""
  | "strengths" => !draft.strengths.isEmpty
  | "growth_areas" => !draft.growth_areas.isEmpty
  | "action_plan" => !draft.action_plan.isEmpty
  | "reflection_questions" => !draft.reflection_questions.isEmpty
  | "tone_check" => draft.tone_check != ""
  | _ => false

/-- `_score_guideline_adherence`:
`round((present / len(must_include)) * 100)`; `none` models the
`ZeroDivisionError` on an empty `must_include` list. -/
def score_guideline_adherence (draft : Draft) (input_packet : InputPacket) : Option ℤ :=
  let must_include := input_packet.guidelines.must_include
  if must_include.isEmpty then none
  else
    let present := must_include.countP (fun key => draftFieldTruthy draft key)
    some (pyRound (mkRat (present * 100) must_include.length))

/-! ## Issue derivation and the local review (evaluation.py lines 22-55) -/

def actionabilityIssue : String := "Action plan lacks enough measurable steps"

def personalizationIssue : String := "Draft could be more personalized to user context"

def crisisIssue : String := "Safety escalation required for crisis language"

def metricInstruction : String := "Add concrete success metrics for every action"

def personalizeInstruction : String := "Personalize summary and actions using persona context"

def crisisInstruction : String :=
  "Add crisis-support escalation language and avoid overconfident coaching"

/-- The crisis guard of evaluate:
`input_packet.get("risk_flags") and "crisis_language" in input_packet["risk_flags"]`
(list truthiness first, then membership). -/
def crisisFlagged (input_packet : InputPacket) : Bool :=
  !input_packet.risk_flags.isEmpty && input_packet.risk_flags.contains "crisis_language"

/-- The local (rubric) path of `EvaluationCrew.evaluate`: compute the five
criterion scores, aggregate with Python `round`, derive issues and revision
instructions, and decide the pass flag.  `none` marks the runs on which a
scorer raises. -/
def evaluateLocal (draft : Draft) (input_packet : InputPacket) : Option Review := do
  let relevance := score_relevance draft input_packet
  let personalization ← score_personalization draft input_packet
  let actionability := score_actionability draft
  let safety := score_safety draft input_packet
  let guideline_adherence ← score_guideline_adherence draft input_packet
  let scores : CriterionScores :=
    { relevance := relevance, personalization := personalization,
      actionability := actionability, safety := safety,
      guideline_adherence := guideline_adherence }
  let overall := pyRound
    (mkRat (relevance + personalization + actionability + safety + guideline_adherence) 5)
  let major_issues :=
    (if actionability < 75 then [actionabilityIssue] else [])
      ++ (if crisisFlagged input_packet then [crisisIssue] else [])
  let minor_issues := if personalization < 70 then [personalizationIssue] else []
  let revision_instructions :=
    (if actionability < 75 then [metricInstruction] else [])
      ++ (if personalization < 70 then [personalizeInstruction] else [])
      ++ (if crisisFlagged input_packet then [crisisInstruction] else [])
  let passed := decide (overall ≥ input_packet.quality_targets.pass_threshold)
    && major_issues.isEmpty
  pure { overall_score := overall, pass := passed, criterion_scores := scores,
         major_issues := major_issues, minor_issues := minor_issues,
         revision_instructions := revision_instructions, confidence := mkRat 82 100 }

/-! ## Delegation wrappers of the evaluator (evaluation.py lines 17-21, 57-70) -/

/-- A JSON value, as produced by `json.loads` on a backend response. -/
inductive JValue where
  | null
  | bool (b : Bool)
  | num (n : ℤ)
  | str (s : String)
  | arr (elems : List JValue)
  | obj (fields : List (String × JValue))

/-- Does a JSON value (when an object) carry the given key? -/
def jHasKey (j : JValue) (k : String) : Bool :=
  match j with
  | .obj fields => fields.any (fun f => f.1 == k)
  | _ => false

/-- The observable outcome of one `self.llm_client.complete(prompt)` call
inside `_llm_evaluate`: no client configured, the call raised (service
unreachable, HTTP error, ...), or it returned text whose `json.loads`
result is the carried `Option JValue` (`none` for non-JSON text). -/
inductive JudgeOutcome where
  | noClient
  | raised
  | completed (parsed : Option JValue)

/-- `_llm_evaluate`: `None` without a client; `try: return
json.loads(complete(prompt)) except Exception: return None` otherwise.
A response that is the JSON literal `null` deserializes to Python `None`,
which the caller's `if llm_review is not None` cannot tell apart from a
delegation failure, so it also selects the fallback.  Every other parsed
JSON value is returned as-is, with no shape validation. -/
def llmEvaluateResult : JudgeOutcome → Option JValue
  | .noClient => none
  | .raised => none
  | .completed none => none
  | .completed (some JValue.null) => none
  | .completed (some j) => some j

/-- What `evaluate` hands back: either the delegated judge's raw JSON, or
the review built by the local rubric. -/
inductive EvalOutput where
  | delegated (j : JValue)
  | localReview (r : Review)

/-- `EvaluationCrew.evaluate`: return the delegated result when
`_llm_evaluate` produced one, otherwise run the local rubric. -/
def evaluate (outcome : JudgeOutcome) (draft : Draft) (input_packet : InputPacket) :
    Option EvalOutput :=
  match llmEvaluateResult outcome with
  | some j => some (.delegated j)
  | none => (evaluateLocal draft input_packet).map .localReview

/-! ## Generation crew (`agent/crews/generation.py`) -/

/-- `GenerationCrew._build_action_plan` (lines 105-117). -/
def build_action_plan (topic : String) (goals : List String) : List ActionItem :=
  let base_goals := if goals.isEmpty then ["Make steady progress on " ++ topic] else goals
  (base_goals.take 3).map (fun goal =>
    { action := "Schedule a focused block for: " ++ goal,
      rationale := "Time-blocking improves consistency and follow-through.",
      time_horizon := "this week",
      success_metric := "Complete at least 3 focused sessions this week" })

/-- `GenerationCrew._heuristic_generate` (lines 74-103). -/
def heuristic_generate (input_packet : InputPacket) : Draft :=
  let topic := input_packet.topic
  let tone := input_packet.persona_profile.preferences.tone
  { topic := topic,
    summary := "Here is a " ++ tone ++ " personal development plan for: " ++ topic,
    strengths := ["You are actively seeking structured feedback",
                  "You are willing to translate feedback into action"],
    growth_areas := ["Improve consistency through smaller repeatable habits",
                     "Track outcomes with clear weekly metrics"],
    action_plan := build_action_plan topic input_packet.persona_profile.goals,
    reflection_questions :=
      ["What was one small win this week and why did it work?",
       "What obstacle repeated most often and how can you reduce its impact?",
       "Which next action feels realistic enough to start today?"],
    tone_check := tone }

def revisionMarker : String := " (revised using reviewer feedback)"

def defaultTrackingMetric : String := "Track progress weekly using a 1-10 self-rating"

/-- The in-place metric fill of the revision loop: give every action item
with a falsy (empty) `success_metric` the default tracking metric. -/
def reviseFill (plan : List ActionItem) : List ActionItem :=
  plan.map (fun item =>
    if item.success_metric == "" then { item with success_metric := defaultTrackingMetric }
    else item)

/-- One pass of the `for instruction in revision_instructions` body over the
mutable state (summary, action plan) of the revised dict. -/
def reviseStep (input_packet : InputPacket) (st : String × List ActionItem)
    (instruction : String) : String × List ActionItem :=
  let lowered := pyLower instruction
  let plan := if strIn "metric" lowered then reviseFill st.2 else st.2
  let summary :=
    if strIn "personal" lowered || strIn "personalize" lowered then
      let context := input_packet.persona_profile.context
      if context != "" && !strIn context st.1 then
        st.1 ++ " Context considered: " ++ context ++ "."
      else st.1
    else st.1
  (summary, plan)

/-- The local fallback branch of `GenerationCrew.revise` (lines 28-42).
`revised = dict(previous_draft)` is a shallow copy: the `action_plan` list
and its item dicts stay shared with the previous draft, so the in-place
metric fill is also visible through the previous draft.  The result is
`(revised draft, state of the previous draft object after the call)`. -/
def reviseLocal (previous_draft : Draft) (revision_instructions : List String)
    (input_packet : InputPacket) : Draft × Draft :=
  let final := revision_instructions.foldl (reviseStep input_packet)
    (previous_draft.summary ++ revisionMarker, previous_draft.action_plan)
  ({ previous_draft with summary := final.1, action_plan := final.2 },
   { previous_draft with action_plan := final.2 })

/-! ## Draft normalization (`GenerationCrew._normalize_draft`, lines 119-157) -/

/-- One entry of a delegated draft's raw `action_plan`: either a JSON
object (fields read through `str(item.get(key, ""))`, restricted here to
string-valued fields, `none` for a missing key) or bare text. -/
inductive RawItem where
  | obj (action rationale time_horizon success_metric : Option String)
  | text (s : String)
deriving DecidableEq

/-- The raw `action_plan` value of a delegated draft: absent/null, a bare
string, or a list of entries. -/
inductive RawPlan where
  | missing
  | text (s : String)
  | items (xs : List RawItem)
deriving DecidableEq

/-- Python `str(x).strip() or default`. -/
def stripOr (s : String) (default : String) : String :=
  let t := pyStrip s
  if t != "" then t else default

/-- Normalization of one action-plan entry: dict entries are always coerced
to the canonical shape with defaults for blank fields; text entries are
kept only when their stripped text is non-empty. -/
def normalize_item : RawItem → Option ActionItem
  | .obj action rationale time_horizon success_metric =>
    some { action := stripOr (action.getD "") "Complete one focused improvement step",
           rationale := stripOr (rationale.getD "") "Build consistency through repetition.",
           time_horizon := stripOr (time_horizon.getD "") "this week",
           success_metric := stripOr (success_metric.getD "") "Track completion rate weekly" }
  | .text s =>
    let text := pyStrip s
    if text != "" then
      some { action := text,
             rationale := "Build consistency through repetition.",
             time_horizon := "this week",
             success_metric := "Track completion rate weekly" }
    else none

/-- The `action_plan` part of `_normalize_draft`: coerce a non-list plan to
a list (`[action_plan] if action_plan else []`), normalize each entry, and
replace an entirely empty result by the generic fallback built from
`normalized.get("topic", "personal development")` and no goals. -/
def normalize_action_plan (topic_value : Option String) (action_plan : RawPlan) :
    List ActionItem :=
  let plan_list : List RawItem :=
    match action_plan with
    | .missing => []
    | .text s => if s != "" then [RawItem.text s] else []
    | .items xs => xs
  let normalized_plan := plan_list.filterMap normalize_item
  if normalized_plan.isEmpty then
    build_action_plan (topic_value.getD "personal development") []
  else normalized_plan

/-- A delegated draft before normalization.  The non-plan fields are
carried through untouched by `_normalize_draft`; the model restricts them
to present string/list values.  `topic` keeps its optional status because
`_normalize_draft` reads it with a default. -/
structure RawDraft where
  topic : Option String
  summary : String
  strengths : List String
  growth_areas : List String
  action_plan : RawPlan
  reflection_questions : List String
  tone_check : String
deriving DecidableEq

/-- `GenerationCrew._normalize_draft`: copy the draft and replace its
`action_plan` by the normalized plan.  (A delegated draft with no "topic"
key keeps lacking it in Python; the model renders that as the empty
topic, which no claim touches.) -/
def normalize_draft (rd : RawDraft) : Draft :=
  { topic := rd.topic.getD "",
    summary := rd.summary,
    strengths := rd.strengths,
    growth_areas := rd.growth_areas,
    action_plan := normalize_action_plan rd.topic rd.action_plan,
    reflection_questions := rd.reflection_questions,
    tone_check := rd.tone_check }

/-! ## Delegated generation and `parse_json_object` -/

def fenceChars : List Char := "```".data

/-- Drop everything up to and including the first newline. -/
def dropLineChars (l : List Char) : List Char :=
  match l.dropWhile (fun c => c != '\n') with
  | [] => []
  | _ :: rest => rest

/-- Modelled from the spec: the fence-stripping half of `parse_json_object`
(imported from `agent.llm` by generation.py but not present under `src`).
Per spec §6, backend text "optionally wrapped in a fenced code block" must
have "such fencing stripped before treating the content as structured
data": when the trimmed text opens with a backtick fence, drop the opening
fence line (with its optional language tag) and the closing fence, then
trim the remaining body. -/
def stripFenceChars (l : List Char) : List Char :=
  let t := trimChars l
  if leadMatch fenceChars t then
    let afterOpen := dropLineChars t
    let body :=
      if leadMatch fenceChars afterOpen.reverse then (afterOpen.reverse.drop 3).reverse
      else afterOpen
    trimChars body
  else l

/-- Modelled from the spec: `strip_code_fence` on strings. -/
def strip_code_fence (s : String) : String := ⟨stripFenceChars s.data⟩

/-- Modelled from the spec: `parse_json_object` (absent from `src`; only
its import, callers and tests exist there).  It strips an optional code
fence and hands the body to the JSON deserializer, whose behavior is the
abstract parameter `loads` (`none` = a raised deserialization error). -/
def parse_json_object {α : Type} (loads : String → Option α) (s : String) : Option α :=
  loads (strip_code_fence s)

/-- A backend reply wrapped in a fenced code block with a language tag, the
optional wrapping named by spec §6. -/
def fenceWrap (body : String) : String := "```json\n" ++ body ++ "\n```"

/-- The observable outcome of one `complete` call of the generation crew:
no client, a raised call, or returned text. -/
inductive GenOutcome where
  | noClient
  | raised
  | completed (s : String)

/-- `_llm_generate` (lines 44-56): `None` without a client; otherwise
`try: return parse_json_object(complete(prompt)) except Exception: None`.
`loads` models `json.loads` plus the reading of the parsed JSON as a raw
draft (`none` for malformed or non-JSON text). -/
def llm_generate (loads : String → Option RawDraft) : GenOutcome → Option RawDraft
  | .noClient => none
  | .raised => none
  | .completed s => parse_json_object loads s

/-- `_llm_revise` (lines 58-72): same delegation shape as `_llm_generate`. -/
def llm_revise (loads : String → Option RawDraft) : GenOutcome → Option RawDraft
  | .noClient => none
  | .raised => none
  | .completed s => parse_json_object loads s

/-- `GenerationCrew.generate`: normalized delegated draft when delegation
succeeded, else the deterministic heuristic draft. -/
def generate (loads : String → Option RawDraft) (outcome : GenOutcome)
    (input_packet : InputPacket) : Draft :=
  match llm_generate loads outcome with
  | some rd => normalize_draft rd
  | none => heuristic_generate input_packet

/-- `GenerationCrew.revise`: normalized delegated revision when delegation
succeeded (the previous draft is untouched on that path), else the local
merge `reviseLocal`. -/
def revise (loads : String → Option RawDraft) (outcome : GenOutcome)
    (previous_draft : Draft) (revision_instructions : List String)
    (input_packet : InputPacket) : Draft × Draft :=
  match llm_revise loads outcome with
  | some rd => (normalize_draft rd, previous_draft)
  | none => reviseLocal previous_draft revision_instructions input_packet

/-! ## Pipeline orchestration (`SelfEvaluationPipeline.run`, pipeline.py lines 31-79) -/

/-- One entry appended to `state["history"]`. -/
structure HistoryEntry where
  iteration : ℕ
  draft : Draft
  review : Review
deriving DecidableEq

/-- The final dict returned by `run`. -/
structure RunFinal where
  status : String
  final_output : Draft
  final_review : Review
deriving DecidableEq

/-- The `while state["iteration"] < max_iterations` loop of `run`, with
`remaining = max_iterations - iteration` as the recursion measure.  This
models the run of a pipeline whose crews have no LLM client, so evaluation
and revision always take the local deterministic paths (the repository
save calls are external fire-and-forget effects and are not modelled).
`none` marks the runs on which the evaluator raises, or on which the empty
history is indexed with `[-1]` after a zero-iteration loop.  History
entries are recorded at append time; in Python the stored draft dicts stay
aliased to the live draft, which later in-place metric fills can touch. -/
def runLoop (input_packet : InputPacket) :
    ℕ → ℕ → Draft → List HistoryEntry → Option (RunFinal × List HistoryEntry)
  | 0, _, _, history =>
    match history.getLast? with
    | none => none
    | some best =>
      some ({ status := "max_iterations_reached",
              final_output := best.draft, final_review := best.review }, history)
  | remaining + 1, iteration, draft, history => do
    let review ← evaluateLocal draft input_packet
    let history := history ++ [⟨iteration, draft, review⟩]
    if review.pass then
      some ({ status := "validated", final_output := draft, final_review := review }, history)
    else
      let revised := (reviseLocal draft review.revision_instructions input_packet).1
      runLoop input_packet remaining (iteration + 1) revised history

/-- `SelfEvaluationPipeline.run` (local-fallback crews): generate once,
then loop, returning the final dict together with the recorded history. -/
def run (input_packet : InputPacket) (max_iterations : ℕ) :
    Option (RunFinal × List HistoryEntry) :=
  runLoop input_packet max_iterations 0 (heuristic_generate input_packet) []

/-! ## Concrete inputs used by witnesses and counterexamples -/

/-- A validated packet whose risk flags carry the crisis tag; its local
evaluations always fail on the crisis major issue. -/
def crisisPacket : InputPacket :=
  { topic := "Improve focus",
    user_intent := "Get structured feedback",
    persona_profile :=
      { goals := ["focus daily"], context := "",
        preferences := { tone := "supportive", format := "hybrid" } },
    guidelines := { must_include := ["summary"], style_rules := [], safety_rules := [] },
    quality_targets := { min_action_items := 3, requires_metrics := true, pass_threshold := 80 },
    risk_flags := ["crisis_language"],
    clarification_needed := false,
    intake_confidence := mkRat 9 10 }

/-- A validated packet with no risk flags; its heuristic draft passes the
local rubric on the first evaluation. -/
def demoPacket : InputPacket :=
  { crisisPacket with risk_flags := [] }

/-- A packet that passes validation although one persona goal is
whitespace-only (validation never constrains goal contents). -/
def whitespaceGoalPacket : InputPacket :=
  { crisisPacket with
    persona_profile :=
      { goals := ["   "], context := "",
        preferences := { tone := "supportive", format := "hybrid" } },
    risk_flags := [] }

/-- A previous draft with one action item whose success metric is empty. -/
def demoDraftNoMetric : Draft :=
  { topic := "t", summary := "s", strengths := [], growth_areas := [],
    action_plan :=
      [{ action := "a", rationale := "r", time_horizon := "h", success_metric := "" }],
    reflection_questions := [], tone_check := "supportive" }

/-- A draft with an empty action plan. -/
def emptyPlanDraft : Draft :=
  { topic := "t", summary := "s", strengths := [], growth_areas := [],
    action_plan := [], reflection_questions := [], tone_check := "direct" }

/-- A draft whose plan carries a success metric on one of three items. -/
def threeItemDraft : Draft :=
  { emptyPlanDraft with action_plan :=
      [{ action := "a", rationale := "r", time_horizon := "h", success_metric := "m" },
       { action := "b", rationale := "r", time_horizon := "h", success_metric := "" },
       { action := "c", rationale := "r", time_horizon := "h", success_metric := "" }] }

/-! ## Facts about `pyRound` -/

/-- The fractional part of `q` written over its reduced denominator. -/
theorem sub_floor_eq_div (q : ℚ) :
    q - ⌊q⌋ = ((q.num - ⌊q⌋ * (q.den : ℤ) : ℤ) : ℚ) / ((q.den : ℕ) : ℚ) := by
  have hd : ((q.den : ℕ) : ℚ) ≠ 0 := by
    exact_mod_cast q.den_nz
  have hn : ((q.num : ℤ) : ℚ) = q * ((q.den : ℕ) : ℚ) := by
    nth_rewrite 2 [← Rat.num_div_den q]
    rw [div_mul_cancel₀ _ hd]
  rw [eq_div_iff hd]
  push_cast
  linarith [hn]

/-- The first guard of `pyRound` decides `q - ⌊q⌋ < 1/2`. -/
theorem pyRound_lt_iff (q : ℚ) :
    2 * (q.num - ⌊q⌋ * (q.den : ℤ)) < (q.den : ℤ) ↔ q - ⌊q⌋ < 1 / 2 := by
  have hd : (0 : ℚ) < ((q.den : ℕ) : ℚ) := by exact_mod_cast q.pos
  rw [sub_floor_eq_div q, div_lt_div_iff₀ hd (by norm_num : (0 : ℚ) < 2),
    show ((q.num - ⌊q⌋ * (q.den : ℤ) : ℤ) : ℚ) * 2
        = ((2 * (q.num - ⌊q⌋ * (q.den : ℤ)) : ℤ) : ℚ) by push_cast; ring,
    show (1 : ℚ) * ((q.den : ℕ) : ℚ) = (((q.den : ℕ) : ℤ) : ℚ) by push_cast; ring,
    Int.cast_lt]

/-- The second guard of `pyRound` decides `1/2 < q - ⌊q⌋`. -/
theorem pyRound_gt_iff (q : ℚ) :
    (q.den : ℤ) < 2 * (q.num - ⌊q⌋ * (q.den : ℤ)) ↔ 1 / 2 < q - ⌊q⌋ := by
  have hd : (0 : ℚ) < ((q.den : ℕ) : ℚ) := by exact_mod_cast q.pos
  rw [sub_floor_eq_div q, div_lt_div_iff₀ (by norm_num : (0 : ℚ) < 2) hd,
    show ((q.num - ⌊q⌋ * (q.den : ℤ) : ℤ) : ℚ) * 2
        = ((2 * (q.num - ⌊q⌋ * (q.den : ℤ)) : ℤ) : ℚ) by push_cast; ring,
    show (1 : ℚ) * ((q.den : ℕ) : ℚ) = (((q.den : ℕ) : ℤ) : ℚ) by push_cast; ring,
    Int.cast_lt]

/-- An exact tie in the guards of `pyRound` means the fraction is `1/2`. -/
theorem pyRound_tie (q : ℚ) (h : 2 * (q.num - ⌊q⌋ * (q.den : ℤ)) = (q.den : ℤ)) :
    q - ⌊q⌋ = 1 / 2 := by
  have hd : (0 : ℚ) < ((q.den : ℕ) : ℚ) := by exact_mod_cast q.pos
  rw [sub_floor_eq_div q, div_eq_div_iff hd.ne' (by norm_num : (2 : ℚ) ≠ 0),
    show ((q.num - ⌊q⌋ * (q.den : ℤ) : ℤ) : ℚ) * 2
        = ((2 * (q.num - ⌊q⌋ * (q.den : ℤ)) : ℤ) : ℚ) by push_cast; ring,
    show (1 : ℚ) * ((q.den : ℕ) : ℚ) = (((q.den : ℕ) : ℤ) : ℚ) by push_cast; ring,
    Int.cast_inj]
  exact h

/-- When the fraction is at least one half (the guards of `pyRound` are
both false or the second holds), `1/2 ≤ q - ⌊q⌋`. -/
theorem pyRound_half_le (q : ℚ) (h1 : ¬2 * (q.num - ⌊q⌋ * (q.den : ℤ)) < (q.den : ℤ)) :
    1 / 2 ≤ q - ⌊q⌋ := by
  rcases lt_or_eq_of_le (le_of_not_lt h1) with hlt | heq
  · exact le_of_lt ((pyRound_gt_iff q).mp hlt)
  · exact le_of_eq (pyRound_tie q heq.symm).symm

/-- Away from exact ties, `pyRound` is Mathlib's `round`. -/
theorem pyRound_eq_round (q : ℚ) (h : q - ⌊q⌋ ≠ 1 / 2) : pyRound q = round q := by
  rw [round_eq]
  unfold pyRound
  have hfl : (⌊q⌋ : ℚ) ≤ q := Int.floor_le q
  have hfu : q < ⌊q⌋ + 1 := Int.lt_floor_add_one q
  split_ifs with h1 h2 h3
  · have hq : q - ⌊q⌋ < 1 / 2 := (pyRound_lt_iff q).mp h1
    symm
    rw [Int.floor_eq_iff]
    constructor
    · linarith
    · linarith
  · have hq : (1 : ℚ) / 2 < q - ⌊q⌋ := (pyRound_gt_iff q).mp h2
    symm
    rw [Int.floor_eq_iff]
    constructor
    · push_cast
      linarith
    · push_cast
      linarith
  all_goals
    exact absurd (pyRound_tie q (by omega)) h

/-- `pyRound` never moves past an integer bound from above the value. -/
theorem pyRound_le (q : ℚ) (n : ℤ) (h : q ≤ (n : ℚ)) : pyRound q ≤ n := by
  unfold pyRound
  have hfl : (⌊q⌋ : ℚ) ≤ q := Int.floor_le q
  have hle : ⌊q⌋ ≤ n := by
    have hc : (⌊q⌋ : ℚ) ≤ (n : ℚ) := le_trans hfl h
    exact_mod_cast hc
  split_ifs with h1 h2 h3
  · exact hle
  all_goals
  · have hhalf : 1 / 2 ≤ q - ⌊q⌋ := pyRound_half_le q h1
    have hlt : (⌊q⌋ : ℚ) < (n : ℚ) := by linarith
    have : ⌊q⌋ < n := by exact_mod_cast hlt
    omega

/-- `pyRound` never drops below an integer bound under the value. -/
theorem le_pyRound (q : ℚ) (n : ℤ) (h : (n : ℚ) ≤ q) : n ≤ pyRound q := by
  have hle : n ≤ ⌊q⌋ := Int.le_floor.mpr h
  unfold pyRound
  split_ifs <;> omega

/-! ## C7 — actionability score -/

/-- C7: for every draft with an empty action plan the actionability score
is exactly 30; for every draft with a non-empty action plan it equals
`min(95, 60 + 35 × (fraction of action items with a non-empty success
metric))`, the product with 35 truncated to an integer as in the code's
`int(...)` (criterion scores are integers). -/
theorem actionability_spec (draft : Draft) :
    (draft.action_plan = [] → score_actionability draft = 30)
  ∧ (draft.action_plan ≠ [] →
      score_actionability draft
        = min 95 (60 +
            ⌊35 * ((draft.action_plan.countP (fun a => a.success_metric != "")) : ℚ)
              / ((draft.action_plan.length : ℕ) : ℚ)⌋)) := by
  constructor
  · intro h
    unfold score_actionability
    simp [h]
  · intro h
    unfold score_actionability
    have hne : draft.action_plan.isEmpty = false := by
      simpa [List.isEmpty_iff] using h
    simp only [hne, Bool.false_eq_true, if_false]
    rw [show (35 : ℚ) * ((draft.action_plan.countP (fun a => a.success_metric != "")) : ℚ)
        = (((35 * draft.action_plan.countP (fun a => a.success_metric != "") : ℕ) : ℤ) : ℚ) by
          push_cast; ring]
    rw [Rat.floor_intCast_div_natCast]
    rw [show ((35 * draft.action_plan.countP (fun a => a.success_metric != "") : ℕ) : ℤ)
          / ((draft.action_plan.length : ℕ) : ℤ)
        = ((35 * draft.action_plan.countP (fun a => a.success_metric != "")
              / draft.action_plan.length : ℕ) : ℤ) by
          rw [Int.natCast_div]]
    push_cast [Nat.cast_min]
    ring_nf

/-- Witness for C7: the empty plan scores 30, and a plan with one metric
among three items scores `min(95, 60 + ⌊35/3⌋) = 71`. -/
theorem actionability_spec_witness :
    score_actionability emptyPlanDraft = 30 ∧ score_actionability threeItemDraft = 71 := by
  constructor
  · exact (actionability_spec emptyPlanDraft).1 (by decide)
  · have h := (actionability_spec threeItemDraft).2 (by decide)
    have hc : threeItemDraft.action_plan.countP (fun a => a.success_metric != "") = 1 := by
      decide
    have hl : threeItemDraft.action_plan.length = 3 := by decide
    rw [h, hc, hl]
    have hfl : ⌊(35 : ℚ) * 1 / 3⌋ = 11 := by
      rw [Int.floor_eq_iff]
      norm_num
    norm_num [hfl]

/-! ## C10 — a validated packet on which the evaluator raises -/

/-- C10: `whitespaceGoalPacket` passes `InputPacket.validate` (validation
never constrains goal contents), its heuristic draft has a non-empty
action plan, and the local personalization scorer hits the unguarded
`g.lower().split()[0]` index on the whitespace-only goal, so the public
evaluate operation is not total over validated packets. -/
theorem evaluate_not_total_on_validated_input :
    validate whitespaceGoalPacket = true
  ∧ (heuristic_generate whitespaceGoalPacket).action_plan ≠ []
  ∧ score_personalization (heuristic_generate whitespaceGoalPacket) whitespaceGoalPacket = none
  ∧ evaluateLocal (heuristic_generate whitespaceGoalPacket) whitespaceGoalPacket = none := by
  exact ⟨by decide, by decide, by decide, by decide⟩

/-! ## Inversion of the local evaluation -/

/-- Unfolding a successful local evaluation into its components. -/
theorem evaluateLocal_some (draft : Draft) (input_packet : InputPacket) (r : Review)
    (h : evaluateLocal draft input_packet = some r) :
    ∃ personalization guideline_adherence,
      score_personalization draft input_packet = some personalization
    ∧ score_guideline_adherence draft input_packet = some guideline_adherence
    ∧ r.criterion_scores =
        { relevance := score_relevance draft input_packet,
          personalization := personalization,
          actionability := score_actionability draft,
          safety := score_safety draft input_packet,
          guideline_adherence := guideline_adherence }
    ∧ r.overall_score = pyRound (mkRat (score_relevance draft input_packet + personalization
        + score_actionability draft + score_safety draft input_packet + guideline_adherence) 5)
    ∧ r.major_issues =
        (if score_actionability draft < 75 then [actionabilityIssue] else [])
          ++ (if crisisFlagged input_packet then [crisisIssue] else [])
    ∧ r.minor_issues = (if personalization < 70 then [personalizationIssue] else [])
    ∧ r.revision_instructions =
        (if score_actionability draft < 75 then [metricInstruction] else [])
          ++ (if personalization < 70 then [personalizeInstruction] else [])
          ++ (if crisisFlagged input_packet then [crisisInstruction] else [])
    ∧ r.pass = (decide (r.overall_score ≥ input_packet.quality_targets.pass_threshold)
          && r.major_issues.isEmpty) := by
  unfold evaluateLocal at h
  cases hp : score_personalization draft input_packet with
  | none => rw [hp] at h; simp at h
  | some personalization =>
    rw [hp] at h
    cases hg : score_guideline_adherence draft input_packet with
    | none => rw [hg] at h; simp at h
    | some guideline_adherence =>
      rw [hg] at h
      simp only [Option.bind_eq_bind, Option.some_bind, Option.pure_def,
        Option.some.injEq] at h
      refine ⟨personalization, guideline_adherence, rfl, rfl, ?_, ?_, ?_, ?_, ?_, ?_⟩
        <;> rw [← h]

/-! ## Bounds of the criterion scores -/

theorem score_relevance_bounds (draft : Draft) (input_packet : InputPacket) :
    0 ≤ score_relevance draft input_packet ∧ score_relevance draft input_packet ≤ 100 := by
  unfold score_relevance
  dsimp only
  split_ifs <;> norm_num

theorem score_personalization_bounds (draft : Draft) (input_packet : InputPacket) (p : ℤ)
    (h : score_personalization draft input_packet = some p) : 0 ≤ p ∧ p ≤ 100 := by
  unfold score_personalization at h
  dsimp only at h
  split_ifs at h with hgoals
  · simp only [Option.pure_def, Option.some.injEq] at h
    omega
  · cases hm : (input_packet.persona_profile.goals.mapM (goalMatch draft.action_plan)) with
    | none => rw [hm] at h; simp at h
    | some ms =>
      rw [hm] at h
      simp only [Option.bind_eq_bind, Option.some_bind, Option.pure_def,
        Option.some.injEq] at h
      have h0 : (0 : ℤ) ≤ (ms.countP (fun b => b) : ℤ) := by positivity
      omega

theorem score_actionability_bounds (draft : Draft) :
    0 ≤ score_actionability draft ∧ score_actionability draft ≤ 100 := by
  unfold score_actionability
  dsimp only
  split_ifs with h
  · omega
  · constructor
    · positivity
    · have hle : min 95 (60 + 35 * (draft.action_plan.countP (fun a => a.success_metric != ""))
          / draft.action_plan.length) ≤ 95 := Nat.min_le_left _ _
      have : ((min 95 (60 + 35 * (draft.action_plan.countP (fun a => a.success_metric != ""))
          / draft.action_plan.length) : ℕ) : ℤ) ≤ ((95 : ℕ) : ℤ) := by exact_mod_cast hle
      omega

theorem score_safety_bounds (draft : Draft) (input_packet : InputPacket) :
    0 ≤ score_safety draft input_packet ∧ score_safety draft input_packet ≤ 100 := by
  unfold score_safety
  split_ifs <;> norm_num

theorem score_guideline_adherence_bounds (draft : Draft) (input_packet : InputPacket) (g : ℤ)
    (h : score_guideline_adherence draft input_packet = some g) : 0 ≤ g ∧ g ≤ 100 := by
  unfold score_guideline_adherence at h
  dsimp only at h
  split_ifs at h with hempty
  simp only [Option.some.injEq] at h
  have hlen : 0 < input_packet.guidelines.must_include.length := by
    cases hmi : input_packet.guidelines.must_include with
    | nil => rw [hmi] at hempty; simp at hempty
    | cons a l => simp
  have hcount : input_packet.guidelines.must_include.countP
      (fun key => draftFieldTruthy draft key) ≤ input_packet.guidelines.must_include.length :=
    List.countP_le_length _
  set present := input_packet.guidelines.must_include.countP
      (fun key => draftFieldTruthy draft key) with hpres
  set len := input_packet.guidelines.must_include.length with hlendef
  have hq : (mkRat (present * 100) len : ℚ) = ((present * 100 : ℤ) : ℚ) / ((len : ℕ) : ℚ) :=
    Rat.mkRat_eq_div _ _
  have hd : (0 : ℚ) < ((len : ℕ) : ℚ) := by exact_mod_cast hlen
  constructor
  · rw [← h]
    apply le_pyRound
    rw [hq]
    push_cast
    positivity
  · rw [← h]
    apply pyRound_le
    rw [hq]
    rw [div_le_iff₀ hd]
    push_cast
    have : (present : ℚ) ≤ (len : ℚ) := by exact_mod_cast hcount
    linarith

/-- The mean of five integers never has fractional part `1/2`. -/
theorem fifths_no_tie (S : ℤ) : (S : ℚ) / 5 - ⌊(S : ℚ) / 5⌋ ≠ 1 / 2 := by
  intro h
  have h2 : (2 * S : ℚ) = 10 * (⌊(S : ℚ) / 5⌋ : ℚ) + 5 := by
    field_simp at h
    linarith
  have h3 : (2 * S : ℤ) = 10 * ⌊(S : ℚ) / 5⌋ + 5 := by exact_mod_cast h2
  omega

/-- `mkRat` over the fixed denominator 5 is division by 5. -/
theorem mkRat_five (S : ℤ) : (mkRat S 5 : ℚ) = (S : ℚ) / 5 := by
  rw [Rat.mkRat_eq_div]
  norm_num

/-! ## C8 — aggregate overall score -/

/-- C8: for every draft and packet on which the local rubric completes,
the review's overall score is the rounded mean of its five criterion
scores and lies in `[0, 100]` (each criterion score itself lying in
`[0, 100]`). -/
theorem overall_score_spec (draft : Draft) (input_packet : InputPacket) (r : Review)
    (h : evaluateLocal draft input_packet = some r) :
    r.overall_score = round (((r.criterion_scores.relevance + r.criterion_scores.personalization
        + r.criterion_scores.actionability + r.criterion_scores.safety
        + r.criterion_scores.guideline_adherence : ℤ) : ℚ) / 5)
  ∧ 0 ≤ r.overall_score ∧ r.overall_score ≤ 100
  ∧ (0 ≤ r.criterion_scores.relevance ∧ r.criterion_scores.relevance ≤ 100)
  ∧ (0 ≤ r.criterion_scores.personalization ∧ r.criterion_scores.personalization ≤ 100)
  ∧ (0 ≤ r.criterion_scores.actionability ∧ r.criterion_scores.actionability ≤ 100)
  ∧ (0 ≤ r.criterion_scores.safety ∧ r.criterion_scores.safety ≤ 100)
  ∧ (0 ≤ r.criterion_scores.guideline_adherence ∧ r.criterion_scores.guideline_adherence ≤ 100)
    := by
  obtain ⟨p, g, hp, hg, hcs, hov, -, -, -, -⟩ := evaluateLocal_some draft input_packet r h
  set S : ℤ := score_relevance draft input_packet + p + score_actionability draft
    + score_safety draft input_packet + g with hS
  have hsum : r.criterion_scores.relevance + r.criterion_scores.personalization
      + r.criterion_scores.actionability + r.criterion_scores.safety
      + r.criterion_scores.guideline_adherence = S := by
    rw [hcs]
  have hb1 := score_relevance_bounds draft input_packet
  have hb2 := score_personalization_bounds draft input_packet p hp
  have hb3 := score_actionability_bounds draft
  have hb4 := score_safety_bounds draft input_packet
  have hb5 := score_guideline_adherence_bounds draft input_packet g hg
  have hS0 : 0 ≤ S := by omega
  have hS500 : S ≤ 500 := by omega
  have hq0 : (0 : ℚ) ≤ (S : ℚ) / 5 := by positivity
  have hq100 : (S : ℚ) / 5 ≤ (100 : ℤ) := by
    rw [div_le_iff₀ (by norm_num : (0 : ℚ) < 5)]
    push_cast
    have : (S : ℚ) ≤ 500 := by exact_mod_cast hS500
    linarith
  refine ⟨?_, ?_, ?_, ?_, ?_, ?_, ?_, ?_⟩
  · rw [hov, hsum, mkRat_five, pyRound_eq_round _ (fifths_no_tie S)]
  · rw [hov, mkRat_five]
    exact le_pyRound _ 0 (by exact_mod_cast hq0)
  · rw [hov, mkRat_five]
    exact pyRound_le _ 100 hq100
  · rw [hcs]
    exact hb1
  · rw [hcs]
    exact hb2
  · rw [hcs]
    exact hb3
  · rw [hcs]
    exact hb4
  · rw [hcs]
    exact hb5

/-- Witness for C8: the demo packet's heuristic draft evaluates to a review
whose overall score is 90, within bounds. -/
theorem overall_score_spec_witness :
    ((evaluateLocal (heuristic_generate demoPacket) demoPacket).map
      (fun r => (r.overall_score, decide (0 ≤ r.overall_score), decide (r.overall_score ≤ 100))))
      = some (90, true, true) := by
  cases hr : evaluateLocal (heuristic_generate demoPacket) demoPacket with
  | none =>
    have hs : (evaluateLocal (heuristic_generate demoPacket) demoPacket).isSome = true := by
      decide
    rw [hr] at hs
    simp at hs
  | some r =>
    have h := overall_score_spec (heuristic_generate demoPacket) demoPacket r hr
    have h90 : r.overall_score = 90 := by
      have hov : (evaluateLocal (heuristic_generate demoPacket) demoPacket).map
          (fun r => r.overall_score) = some 90 := by decide
      rw [hr] at hov
      simpa using hov
    simp [h90]

/-! ## C2 — crisis flag forces a failing review -/

/-- C2: whenever `evaluate` answers through the local rubric (the
delegated judge produced nothing) and the packet's risk flags contain the
crisis tag, the review carries the crisis major issue and its pass flag is
false, regardless of the computed criterion scores and overall score. -/
theorem crisis_forces_fail (outcome : JudgeOutcome) (draft : Draft)
    (input_packet : InputPacket) (r : Review)
    (h : evaluate outcome draft input_packet = some (.localReview r))
    (hcrisis : "crisis_language" ∈ input_packet.risk_flags) :
    r.pass = false ∧ crisisIssue ∈ r.major_issues := by
  have hl : evaluateLocal draft input_packet = some r := by
    unfold evaluate at h
    cases hj : llmEvaluateResult outcome with
    | some j => rw [hj] at h; simp at h
    | none =>
      rw [hj] at h
      cases he : evaluateLocal draft input_packet with
      | none => rw [he] at h; simp at h
      | some r' =>
        rw [he] at h
        simp only [Option.map_some', Option.some.injEq, EvalOutput.localReview.injEq] at h
        rw [h]
  obtain ⟨p, g, -, -, -, -, hmaj, -, -, hpass⟩ := evaluateLocal_some draft input_packet r hl
  have hcf : crisisFlagged input_packet = true := by
    unfold crisisFlagged
    have h1 : input_packet.risk_flags.contains "crisis_language" = true :=
      List.elem_eq_true_of_mem hcrisis
    have h2 : input_packet.risk_flags.isEmpty = false := by
      have : input_packet.risk_flags ≠ [] := List.ne_nil_of_mem hcrisis
      simpa [List.isEmpty_iff] using this
    rw [h1, h2]
    rfl
  have hmem : crisisIssue ∈ r.major_issues := by
    rw [hmaj, hcf]
    simp
  refine ⟨?_, hmem⟩
  rw [hpass]
  have hne : r.major_issues.isEmpty = false := by
    have : r.major_issues ≠ [] := List.ne_nil_of_mem hmem
    simpa [List.isEmpty_iff] using this
  rw [hne]
  exact Bool.and_false _

/-- Witness for C2: the crisis packet's first local evaluation fails. -/
theorem crisis_forces_fail_witness :
    ((evaluate .noClient (heuristic_generate crisisPacket) crisisPacket).map
      (fun out => match out with
        | .localReview r => r.pass
        | .delegated _ => true)) = some false := by
  cases hr : evaluate .noClient (heuristic_generate crisisPacket) crisisPacket with
  | none =>
    have hs : ((evaluate .noClient (heuristic_generate crisisPacket) crisisPacket).map
        (fun out => match out with
          | .localReview _ => true
          | .delegated _ => false)) = some true := by decide
    rw [hr] at hs
    simp at hs
  | some out =>
    cases out with
    | delegated j =>
      have hs : ((evaluate .noClient (heuristic_generate crisisPacket) crisisPacket).map
          (fun out => match out with
            | .localReview _ => true
            | .delegated _ => false)) = some true := by decide
      rw [hr] at hs
      simp at hs
    | localReview r =>
      have h := crisis_forces_fail .noClient (heuristic_generate crisisPacket) crisisPacket r hr
        (by decide)
      simp [h.1]

/-! ## C1 — pipeline exhaustion and history length -/

/-- Loop invariant for `runLoop`: when every recorded review fails, the
run exhausts the budget, appends exactly one entry per remaining
iteration, and the recorded iteration indices continue in order. -/
theorem runLoop_allfail (input_packet : InputPacket) (remaining : ℕ) :
    ∀ (iteration : ℕ) (draft : Draft) (history0 : List HistoryEntry)
      (final : RunFinal) (hist : List HistoryEntry),
      runLoop input_packet remaining iteration draft history0 = some (final, hist) →
      (∀ e ∈ hist, e.review.pass = false) →
      final.status = "max_iterations_reached"
      ∧ hist.length = history0.length + remaining
      ∧ hist.map (fun e => e.iteration)
          = history0.map (fun e => e.iteration) ++ List.range' iteration remaining := by
  induction remaining with
  | zero =>
    intro iteration draft history0 final hist h hfail
    unfold runLoop at h
    cases hl : history0.getLast? with
    | none => rw [hl] at h; simp at h
    | some best =>
      rw [hl] at h
      simp only [Option.some.injEq, Prod.mk.injEq] at h
      obtain ⟨hfin, hh⟩ := h
      subst hh
      exact ⟨by rw [← hfin], by omega, by simp [List.range']⟩
  | succ k ih =>
    intro iteration draft history0 final hist h hfail
    unfold runLoop at h
    cases he : evaluateLocal draft input_packet with
    | none => rw [he] at h; simp at h
    | some review =>
      rw [he] at h
      simp only [Option.bind_eq_bind, Option.some_bind] at h
      by_cases hp : review.pass = true
      · rw [if_pos hp] at h
        simp only [Option.some.injEq, Prod.mk.injEq] at h
        obtain ⟨-, hh⟩ := h
        exfalso
        have hmem : (⟨iteration, draft, review⟩ : HistoryEntry) ∈ hist := by
          rw [← hh]
          exact List.mem_append_right _ (by simp)
        have := hfail _ hmem
        simp only at this
        rw [hp] at this
        cases this
      · rw [if_neg hp] at h
        obtain ⟨hstat, hlen, hmap⟩ := ih (iteration + 1)
          ((reviseLocal draft review.revision_instructions input_packet).1)
          (history0 ++ [⟨iteration, draft, review⟩]) final hist h hfail
        refine ⟨hstat, ?_, ?_⟩
        · rw [hlen]
          simp
          omega
        · rw [hmap]
          rw [List.range'_succ iteration k 1]
          simp

/-- C1 (amended): for `max_iterations = N`, when every recorded evaluation
fails the run returns status `max_iterations_reached` and the recorded
history has length N — the initial generation's evaluation plus the first
N−1 revisions' evaluations, appended in order with iteration indices
0..N−1; the N-th revision is produced but never evaluated or recorded. -/
theorem pipeline_exhaustion_spec (input_packet : InputPacket) (N : ℕ)
    (final : RunFinal) (hist : List HistoryEntry)
    (hrun : run input_packet N = some (final, hist))
    (hfail : ∀ e ∈ hist, e.review.pass = false) :
    final.status = "max_iterations_reached"
  ∧ hist.length = N
  ∧ hist.map (fun e => e.iteration) = List.range' 0 N := by
  obtain ⟨hstat, hlen, hmap⟩ := runLoop_allfail input_packet N 0
    (heuristic_generate input_packet) [] final hist hrun hfail
  exact ⟨hstat, by simpa using hlen, by simpa using hmap⟩

/-- C1 counterexample: with `max_iterations = 1` on the crisis packet every
recorded evaluation fails and the run exhausts, but the history length is
1, not the claimed N + 1 = 2. -/
theorem pipeline_history_counterexample :
    ((run crisisPacket 1).map
      (fun r => (r.1.status, r.2.length, r.2.all (fun e => e.review.pass == false))))
      = some ("max_iterations_reached", 1, true)
  ∧ (run crisisPacket 1).map (fun r => r.2.length) ≠ some 2 := by
  exact ⟨by decide, by decide⟩

/-- Witness for C1 (amended) at the crisis packet with budget 1. -/
theorem pipeline_exhaustion_spec_witness :
    ((run crisisPacket 1).map (fun r => (r.1.status, r.2.length)))
      = some ("max_iterations_reached", 1) := by
  cases hr : run crisisPacket 1 with
  | none =>
    have hs : (run crisisPacket 1).isSome = true := by decide
    rw [hr] at hs
    simp at hs
  | some pr =>
    obtain ⟨final, hist⟩ := pr
    have hfail : ∀ e ∈ hist, e.review.pass = false := by
      have hall : (run crisisPacket 1).map
          (fun r => r.2.all (fun e => e.review.pass == false)) = some true := by decide
      rw [hr] at hall
      simp only [Option.map_some', Option.some.injEq] at hall
      intro e he
      have := List.all_eq_true.mp hall e he
      simpa using this
    have h := pipeline_exhaustion_spec crisisPacket 1 final hist hr hfail
    simp [h.1, h.2.1]

/-! ## C3 — delegation failure handling of the evaluator -/

/-- C3 (amended): delegation failures that raise or return a body that
does not deserialize to a usable value (no configured client, a raising
call, an undecodable body, or the JSON literal `null`, whose Python
`None` is indistinguishable from the failure sentinel) are absorbed
silently and unconditionally — evaluate answers through the local rubric
with no retry and no propagated error; but any other response that parses
as JSON is returned as-is even when it misses every expected Review
field, so shape gaps are not treated as delegation failures. -/
theorem delegation_fallback_spec (outcome : JudgeOutcome) (draft : Draft)
    (input_packet : InputPacket) :
    (llmEvaluateResult outcome = none →
       evaluate outcome draft input_packet
         = (evaluateLocal draft input_packet).map .localReview)
  ∧ (∀ j, llmEvaluateResult outcome = some j →
       evaluate outcome draft input_packet = some (.delegated j))
  ∧ llmEvaluateResult .noClient = none
  ∧ llmEvaluateResult .raised = none
  ∧ llmEvaluateResult (.completed none) = none
  ∧ llmEvaluateResult (.completed (some JValue.null)) = none := by
  refine ⟨?_, ?_, rfl, rfl, rfl, rfl⟩
  · intro h
    unfold evaluate
    rw [h]
  · intro j h
    unfold evaluate
    rw [h]

/-- C3 counterexample: the empty JSON object — valid JSON missing every
expected Review field — is handed back unchanged instead of triggering the
silent local fallback. -/
theorem delegation_fallback_counterexample :
    evaluate (.completed (some (JValue.obj []))) demoDraftNoMetric demoPacket
      = some (.delegated (JValue.obj []))
  ∧ jHasKey (JValue.obj []) "pass" = false
  ∧ evaluate (.completed (some (JValue.obj []))) demoDraftNoMetric demoPacket
      ≠ (evaluateLocal demoDraftNoMetric demoPacket).map .localReview := by
  refine ⟨rfl, rfl, ?_⟩
  intro h
  have hev : evaluate (.completed (some (JValue.obj []))) demoDraftNoMetric demoPacket
      = some (.delegated (JValue.obj [])) := rfl
  rw [hev] at h
  cases he : evaluateLocal demoDraftNoMetric demoPacket with
  | none => rw [he] at h; simp at h
  | some r =>
    rw [he] at h
    simp only [Option.map_some', Option.some.injEq] at h
    cases h

/-- Witness for C3 at a raising call, at a JSON-null response (which
falls back because Python `None` doubles as the failure sentinel), and at
a parsed non-null JSON value (passed through). -/
theorem delegation_fallback_spec_witness :
    evaluate .raised demoDraftNoMetric demoPacket
      = (evaluateLocal demoDraftNoMetric demoPacket).map .localReview
  ∧ evaluate (.completed (some JValue.null)) demoDraftNoMetric demoPacket
      = (evaluateLocal demoDraftNoMetric demoPacket).map .localReview
  ∧ evaluate (.completed (some (JValue.num 42))) demoDraftNoMetric demoPacket
      = some (.delegated (JValue.num 42)) := by
  exact ⟨(delegation_fallback_spec .raised demoDraftNoMetric demoPacket).1 rfl,
         (delegation_fallback_spec (.completed (some JValue.null)) demoDraftNoMetric
           demoPacket).1 rfl,
         (delegation_fallback_spec (.completed (some (JValue.num 42))) demoDraftNoMetric
           demoPacket).2.1 (JValue.num 42) rfl⟩

/-! ## C6 — revise mutates the previous draft through the shared plan -/

/-- C6 (code bug): `revised = dict(previous_draft)` shares the action-plan
list and its item dicts with the previous draft, so the in-place metric
fill of the revision loop overwrites the previous draft's empty
`success_metric`: after `revise` returns, the previous draft object has
changed. -/
theorem revise_mutates_previous_draft :
    demoDraftNoMetric.action_plan.map (fun a => a.success_metric) = [""]
  ∧ ((reviseLocal demoDraftNoMetric [metricInstruction] demoPacket).2.action_plan.map
      (fun a => a.success_metric)) = [defaultTrackingMetric]
  ∧ (reviseLocal demoDraftNoMetric [metricInstruction] demoPacket).2 ≠ demoDraftNoMetric
  ∧ (reviseLocal demoDraftNoMetric [metricInstruction] demoPacket).2.summary
      = demoDraftNoMetric.summary := by
  exact ⟨by decide, by decide, by decide, by decide⟩

/-! ## C9 — normalization of a text-only action plan -/

/-- C9 (amended): a single text-string action plan whose stripped text is
non-empty normalizes to a single-element structured plan carrying the
stripped text as action and the default rationale, time horizon and
success metric; a plan that normalizes to empty (absent, empty, or
whitespace-only text) is replaced by the generic fallback plan built from
the draft's topic (default "personal development") and no goals. -/
theorem normalize_plan_spec (topic_value : Option String) (s : String) :
    (pyStrip s ≠ "" →
       normalize_action_plan topic_value (RawPlan.text s)
         = [{ action := pyStrip s, rationale := "Build consistency through repetition.",
              time_horizon := "this week",
              success_metric := "Track completion rate weekly" }])
  ∧ (pyStrip s = "" →
       normalize_action_plan topic_value (RawPlan.text s)
         = build_action_plan (topic_value.getD "personal development") [])
  ∧ normalize_action_plan topic_value RawPlan.missing
      = build_action_plan (topic_value.getD "personal development") [] := by
  refine ⟨?_, ?_, ?_⟩
  · intro h
    have hs : (s != "") = true := by
      simp only [bne_iff_ne, ne_eq]
      intro he
      rw [he] at h
      exact h rfl
    have hps : (pyStrip s != "") = true := by simpa [bne_iff_ne] using h
    simp [normalize_action_plan, normalize_item, hs, hps, List.filterMap]
  · intro h
    by_cases hs0 : s = ""
    · subst hs0
      simp [normalize_action_plan]
    · have hs : (s != "") = true := by simpa [bne_iff_ne] using hs0
      have hps : (pyStrip s != "") = false := by simp [h]
      simp [normalize_action_plan, normalize_item, hs, hps, List.filterMap]
  · simp [normalize_action_plan]

/-- C9 counterexample: the non-empty text `" hi "` yields the stripped
action `"hi"`, not the given text; and a whitespace-only (still non-empty)
text is dropped entirely and replaced by the generic fallback plan. -/
theorem normalize_plan_counterexample :
    ((normalize_action_plan (some "t") (RawPlan.text " hi ")).map (fun a => a.action)) ≠ [" hi "]
  ∧ ((normalize_action_plan (some "t") (RawPlan.text " hi ")).map (fun a => a.action)) = ["hi"]
  ∧ normalize_action_plan (some "t") (RawPlan.text "  ") = build_action_plan "t" [] := by
  exact ⟨by decide, by decide, by decide⟩

/-- Witness for C9 on a padded non-empty text entry. -/
theorem normalize_plan_spec_witness :
    normalize_action_plan none (RawPlan.text " Practice one update ")
      = [{ action := "Practice one update",
           rationale := "Build consistency through repetition.",
           time_horizon := "this week",
           success_metric := "Track completion rate weekly" }] := by
  have h := (normalize_plan_spec none " Practice one update ").1 (by decide)
  rw [h]
  decide

/-! ## C4 — fenced backend responses and delegation failures -/

/-- A list matches at the head of itself followed by anything. -/
theorem leadMatch_refl_append (n t : List Char) : leadMatch n (n ++ t) = true := by
  induction n with
  | nil => rfl
  | cons a as ih => simp [leadMatch, ih]

/-- A head kept by `dropWhile` falsifies the predicate. -/
theorem dropWhile_self_head (p : Char → Bool) (c : Char) (cs : List Char)
    (h : (c :: cs).dropWhile p = c :: cs) : p c = false := by
  by_cases hc : p c = true
  · exfalso
    rw [List.dropWhile_cons, if_pos hc] at h
    have hle : (cs.dropWhile p).length ≤ cs.length :=
      (List.dropWhile_suffix p).sublist.length_le
    have := congrArg List.length h
    simp at this
    omega
  · simpa using hc

/-- `dropWhile` stays put on an untouched non-empty list extended to the
right. -/
theorem dropWhile_append_of_fix (p : Char → Bool) (l₁ l₂ : List Char)
    (h : l₁.dropWhile p = l₁) (hne : l₁ ≠ []) :
    (l₁ ++ l₂).dropWhile p = l₁ ++ l₂ := by
  cases l₁ with
  | nil => exact absurd rfl hne
  | cons c cs =>
    have hc : p c = false := dropWhile_self_head p c cs h
    simp [List.dropWhile_cons, hc]

/-- `trimLeftChars` stays put on a left part it already fixes. -/
theorem trimLeftChars_append_of_fix (l₁ l₂ : List Char)
    (h : trimLeftChars l₁ = l₁) (hne : l₁ ≠ []) :
    trimLeftChars (l₁ ++ l₂) = l₁ ++ l₂ :=
  dropWhile_append_of_fix _ l₁ l₂ h hne

/-- `trimRightChars` stays put on a right part it already fixes. -/
theorem trimRightChars_append_of_fix (l₁ l₂ : List Char)
    (h : trimRightChars l₂ = l₂) (hne : l₂ ≠ []) :
    trimRightChars (l₁ ++ l₂) = l₁ ++ l₂ := by
  have hrev : l₂.reverse.dropWhile Char.isWhitespace = l₂.reverse := by
    have := congrArg List.reverse h
    simpa [trimRightChars] using this
  have hrevne : l₂.reverse ≠ [] := by
    simpa using hne
  unfold trimRightChars
  rw [List.reverse_append, dropWhile_append_of_fix _ _ _ hrev hrevne]
  simp

/-- Stripping the fence from a wrapped body recovers the body, provided
the body carries no surrounding whitespace. -/
theorem stripFenceChars_wrap (body : List Char)
    (hL : trimLeftChars body = body) (hR : trimRightChars body = body) :
    stripFenceChars ("```json\n".data ++ body ++ "\n```".data) = body := by
  have hRdrop : body.reverse.dropWhile Char.isWhitespace = body.reverse := by
    have := congrArg List.reverse hR
    simpa [trimRightChars] using this
  have htrim : trimChars ("```json\n".data ++ body ++ "\n```".data)
      = "```json\n".data ++ body ++ "\n```".data := by
    unfold trimChars
    rw [List.append_assoc, trimLeftChars_append_of_fix "```json\n".data _ (by decide) (by decide),
      ← List.append_assoc,
      trimRightChars_append_of_fix _ "\n```".data (by decide) (by decide)]
  have hlead : leadMatch fenceChars ("```json\n".data ++ body ++ "\n```".data) = true := by
    rw [show ("```json\n".data ++ body ++ "\n```".data)
        = fenceChars ++ ("json\n".data ++ body ++ "\n```".data) by simp [fenceChars]]
    exact leadMatch_refl_append _ _
  have hline : dropLineChars ("```json\n".data ++ body ++ "\n```".data)
      = body ++ "\n```".data := by
    unfold dropLineChars
    rw [List.append_assoc,
      show ("```json\n".data : List Char) = "```json".data ++ "\n".data by decide,
      List.append_assoc, List.dropWhile_append]
    rw [show (List.dropWhile (fun c => c != '\n') "```json".data) = [] by decide]
    simp
  have hendrev : (body ++ "\n```".data).reverse
      = fenceChars ++ ("\n".data ++ body.reverse) := by
    rw [List.reverse_append]
    rw [show ("\n```".data : List Char).reverse = fenceChars ++ "\n".data by decide]
    simp
  have hend : leadMatch fenceChars (body ++ "\n```".data).reverse = true := by
    rw [hendrev]
    exact leadMatch_refl_append _ _
  have hdrop : ((body ++ "\n```".data).reverse.drop 3).reverse = body ++ "\n".data := by
    rw [hendrev, show (3 : ℕ) = (fenceChars : List Char).length by decide,
      List.drop_left]
    simp
  have htrimtail : trimChars (body ++ "\n".data) = body := by
    unfold trimChars
    cases body with
    | nil => decide
    | cons c cs =>
      have hc : c.isWhitespace = false := dropWhile_self_head _ c cs hL
      have h1 : trimLeftChars ((c :: cs) ++ "\n".data) = (c :: cs) ++ "\n".data := by
        unfold trimLeftChars
        simp [List.dropWhile_cons, hc]
      rw [h1]
      unfold trimRightChars
      rw [show ((c :: cs) ++ "\n".data).reverse = '\n' :: (c :: cs).reverse by simp,
        List.dropWhile_cons]
      rw [if_pos (by decide), hRdrop]
      simp
  unfold stripFenceChars
  rw [htrim, if_pos hlead, hline]
  dsimp only
  rw [if_pos hend, hdrop, htrimtail]

/-- Stripping a wrapped string recovers the body. -/
theorem strip_code_fence_wrap (body : String)
    (hL : trimLeftChars body.data = body.data) (hR : trimRightChars body.data = body.data) :
    strip_code_fence (fenceWrap body) = body := by
  unfold strip_code_fence fenceWrap
  rw [show ("```json\n" ++ body ++ "\n```").data
      = "```json\n".data ++ body.data ++ "\n```".data from rfl]
  rw [stripFenceChars_wrap body.data hL hR]

/-- C4: a backend response wrapped in a fenced code block has the fencing
stripped before the body reaches the JSON deserializer, and a malformed or
non-parseable response is a delegation failure, not a fatal error: both
generate and revise fall back to their deterministic local paths and
always return. -/
theorem backend_fencing_spec (loads : String → Option RawDraft) (body : String)
    (hL : trimLeftChars body.data = body.data)
    (hR : trimRightChars body.data = body.data) :
    parse_json_object loads (fenceWrap body) = loads body
  ∧ (∀ s input_packet, parse_json_object loads s = none →
       generate loads (.completed s) input_packet = heuristic_generate input_packet)
  ∧ (∀ s previous_draft instructions input_packet, parse_json_object loads s = none →
       revise loads (.completed s) previous_draft instructions input_packet
         = reviseLocal previous_draft instructions input_packet) := by
  refine ⟨?_, ?_, ?_⟩
  · unfold parse_json_object
    rw [strip_code_fence_wrap body hL hR]
  · intro s input_packet h
    unfold generate llm_generate
    dsimp only
    rw [h]
  · intro s previous_draft instructions input_packet h
    unfold revise llm_revise
    dsimp only
    rw [h]

/-- Witness for C4: a fenced body reaches the parser unfenced, and an
unparseable completion falls back to the heuristic draft. -/
theorem backend_fencing_spec_witness :
    parse_json_object (fun _ => (none : Option RawDraft)) (fenceWrap "null")
      = (fun _ => (none : Option RawDraft)) "null"
  ∧ generate (fun _ => (none : Option RawDraft)) (.completed "null") demoPacket
      = heuristic_generate demoPacket := by
  have h := backend_fencing_spec (fun _ => (none : Option RawDraft)) "null"
    (by decide) (by decide)
  exact ⟨h.1, h.2.1 "null" demoPacket rfl⟩

/-! ## C5 — idempotence of the local revision merge -/

/-- The empty needle occurs in every list. -/
theorem charsHasSub_nil (t : List Char) : charsHasSub [] t = true := by
  induction t with
  | nil => rfl
  | cons b bs ih => simp [charsHasSub, leadMatch]

/-- A head match survives extending the haystack on the right. -/
theorem leadMatch_append_right (n : List Char) :
    ∀ h t : List Char, leadMatch n h = true → leadMatch n (h ++ t) = true := by
  induction n with
  | nil => intro h t _; rfl
  | cons a as ih =>
    intro h t hm
    cases h with
    | nil => cases hm
    | cons b bs =>
      simp only [leadMatch, Bool.and_eq_true] at hm
      simp only [List.cons_append, leadMatch, Bool.and_eq_true]
      exact ⟨hm.1, ih bs t hm.2⟩

/-- A substring occurrence survives extending the haystack on the right. -/
theorem charsHasSub_append_right (n : List Char) :
    ∀ h t : List Char, charsHasSub n h = true → charsHasSub n (h ++ t) = true := by
  intro h
  induction h with
  | nil =>
    intro t hm
    simp only [charsHasSub] at hm
    have hn : n = [] := by simpa [List.isEmpty_iff] using hm
    subst hn
    exact charsHasSub_nil t
  | cons b bs ih =>
    intro t hm
    simp only [charsHasSub, Bool.or_eq_true] at hm
    rcases hm with hm | hm
    · simp only [List.cons_append, charsHasSub, Bool.or_eq_true]
      exact Or.inl (leadMatch_append_right n (b :: bs) t hm)
    · simp only [List.cons_append, charsHasSub, Bool.or_eq_true]
      exact Or.inr (ih t hm)

/-- A substring occurrence survives extending the haystack on the left. -/
theorem charsHasSub_skip (n : List Char) :
    ∀ a rest : List Char, charsHasSub n rest = true → charsHasSub n (a ++ rest) = true := by
  intro a
  induction a with
  | nil => intro rest hm; simpa using hm
  | cons c cs ih =>
    intro rest hm
    simp only [List.cons_append, charsHasSub, Bool.or_eq_true]
    exact Or.inr (ih rest hm)

/-- A list occurs in itself followed by anything. -/
theorem charsHasSub_self_append (n b : List Char) : charsHasSub n (n ++ b) = true := by
  cases n with
  | nil => exact charsHasSub_nil b
  | cons c cs =>
    simp only [List.cons_append, charsHasSub, Bool.or_eq_true]
    exact Or.inl (leadMatch_refl_append (c :: cs) b)

/-- Python `in` survives appending to the haystack. -/
theorem strIn_append_right (n h t : String) (hm : strIn n h = true) :
    strIn n (h ++ t) = true := by
  unfold strIn at hm ⊢
  exact charsHasSub_append_right n.data h.data t.data hm

/-- Python `in` holds on an exact sandwich occurrence. -/
theorem strIn_sandwich (a n b : String) : strIn n (a ++ n ++ b) = true := by
  unfold strIn
  rw [show ((a ++ n ++ b).data : List Char) = a.data ++ (n.data ++ b.data) from by
    simp [List.append_assoc]]
  exact charsHasSub_skip n.data a.data (n.data ++ b.data)
    (charsHasSub_self_append n.data b.data)

/-- Refilling metrics is idempotent: a filled metric is never refilled. -/
theorem reviseFill_idem (plan : List ActionItem) :
    reviseFill (reviseFill plan) = reviseFill plan := by
  unfold reviseFill
  rw [List.map_map]
  apply List.map_congr_left
  intro a _
  by_cases h : (a.success_metric == "") = true
  · simp [Function.comp, h, defaultTrackingMetric]
  · simp [Function.comp, h]

/-- Shape of one local revision under the metric instruction. -/
theorem reviseLocal_metric_fst (d : Draft) (p : InputPacket) :
    (reviseLocal d [metricInstruction] p).1
      = { d with summary := d.summary ++ revisionMarker,
                 action_plan := reviseFill d.action_plan } := by
  simp only [reviseLocal, reviseStep, List.foldl_cons, List.foldl_nil,
    show strIn "metric" (pyLower metricInstruction) = true from by decide,
    show strIn "personal" (pyLower metricInstruction) = false from by decide,
    show strIn "personalize" (pyLower metricInstruction) = false from by decide,
    Bool.or_self, Bool.false_or, if_true, if_false]
  simp

/-- Shape of one local revision under the personalize instruction. -/
theorem reviseLocal_personalize_fst (d : Draft) (p : InputPacket) :
    (reviseLocal d [personalizeInstruction] p).1
      = { d with summary :=
            if p.persona_profile.context != ""
                && !strIn p.persona_profile.context (d.summary ++ revisionMarker) then
              d.summary ++ revisionMarker ++ " Context considered: "
                ++ p.persona_profile.context ++ "."
            else d.summary ++ revisionMarker } := by
  simp only [reviseLocal, reviseStep, List.foldl_cons, List.foldl_nil,
    show strIn "metric" (pyLower personalizeInstruction) = false from by decide,
    show strIn "personal" (pyLower personalizeInstruction) = true from by decide,
    Bool.true_or, if_true, if_false]
  simp

/-- A second personalize pass that already sees the context in the summary
only appends the fixed revision marker. -/
theorem reviseLocal_personalize_no_reappend (d : Draft) (p : InputPacket)
    (hin : (p.persona_profile.context != "") = true →
      strIn p.persona_profile.context (d.summary ++ revisionMarker) = true) :
    (reviseLocal d [personalizeInstruction] p).1.summary = d.summary ++ revisionMarker := by
  rw [reviseLocal_personalize_fst]
  dsimp only
  by_cases hc : (p.persona_profile.context != "") = true
  · simp [hin hc]
  · have hc0 : (p.persona_profile.context != "") = false := by simpa using hc
    simp [hc0]

/-- C5: the local revision merge is idempotent per instruction type —
applying the metric instruction twice yields the same action plan as
applying it once (no refilling of a filled metric), and applying the
personalize instruction twice appends the persona context at most once:
the second pass only adds the fixed revision marker to the summary. -/
theorem revise_idempotence (draft : Draft) (input_packet : InputPacket) :
    (reviseLocal (reviseLocal draft [metricInstruction] input_packet).1
        [metricInstruction] input_packet).1.action_plan
      = (reviseLocal draft [metricInstruction] input_packet).1.action_plan
  ∧ (reviseLocal (reviseLocal draft [personalizeInstruction] input_packet).1
        [personalizeInstruction] input_packet).1.summary
      = (reviseLocal draft [personalizeInstruction] input_packet).1.summary
          ++ revisionMarker := by
  constructor
  · rw [reviseLocal_metric_fst draft input_packet, reviseLocal_metric_fst]
    exact reviseFill_idem draft.action_plan
  · apply reviseLocal_personalize_no_reappend
    intro hc
    rw [reviseLocal_personalize_fst draft input_packet]
    dsimp only
    by_cases hfirst : (input_packet.persona_profile.context != ""
        && !strIn input_packet.persona_profile.context
            (draft.summary ++ revisionMarker)) = true
    · rw [if_pos hfirst]
      apply strIn_append_right
      exact strIn_sandwich (draft.summary ++ revisionMarker ++ " Context considered: ")
        input_packet.persona_profile.context "."
    · rw [if_neg hfirst]
      apply strIn_append_right
      have h2 : ¬(!strIn input_packet.persona_profile.context
          (draft.summary ++ revisionMarker)) = true := by
        intro hh
        exact hfirst (by rw [hc, hh]; rfl)
      cases hstr : strIn input_packet.persona_profile.context
          (draft.summary ++ revisionMarker) with
      | true => rfl
      | false => exact absurd (by rw [hstr]; rfl) h2

end FeedbackAgent
